import Mathlib

/-!
Verification of the core logic of the Torn company-listings app, embedded
from `src/api_solov2chat.py` and `src/chat.py`: the token-bucket rate
limiter with cooldown, the error-outcome handling of the fetch routines,
the price-inference helpers, and the snapshot deduplication plan.

Timestamps and token counts are modelled as rationals (`ℚ`); the Python
floats carry exact decimal values in all the configuration constants, so
rational arithmetic is a faithful model of the arithmetic the code performs.
-/

/-! Configuration constants.  Both source files define the same constants with
the same values (`PRICE_START = 135`, `PRICE_END = 199`, `CALL_INTERVAL = 2.0`,
`TOKEN_BUCKET_SIZE = 5`, `TOKEN_REFILL_RATE = 1/2.0`, `COOLDOWN_SECONDS = 300`,
`MAX_CONSECUTIVE_ERRORS = 3`), so they are declared once. -/

def PRICE_START : ℤ := 135

def PRICE_END : ℤ := 199

def CALL_INTERVAL : ℚ := 2

def TOKEN_BUCKET_SIZE : ℚ := 5

def TOKEN_REFILL_RATE : ℚ := 1 / 2

def COOLDOWN_SECONDS : ℚ := 300

def MAX_CONSECUTIVE_ERRORS : ℕ := 3

/-- The mutable rate-limiter globals of both source files
(`_tokens`, `_last_call_time`, `_api_disabled_until`, `_consecutive_errors`,
`_last_token_refill`), gathered into one state record. -/
structure RateState where
  tokens : ℚ
  last_call_time : ℚ
  api_disabled_until : ℚ
  consecutive_errors : ℕ
  last_token_refill : ℚ
deriving DecidableEq, Repr

/-- Result of `wait_for_rate_limit`: the Python returns `(True, "OK")` on a
grant, `(False, "API disabled for …s")` while cooling down, and
`(False, "No tokens available")` when the bucket is empty.  The cooldown
denial carries the exact remaining time `_api_disabled_until - now`
(the Python truncates it with `int()` only for the message text). -/
inductive AcquireResult where
  | permit
  | cooldownDenial (remaining : ℚ)
  | exhaustedDenial
deriving DecidableEq, Repr

namespace ApiSolo

/-- `_refill_tokens` from `src/api_solov2chat.py` (lines 58–65): compute
`elapsed * TOKEN_REFILL_RATE` new tokens since `_last_token_refill`; if that
is positive, cap the sum at `TOKEN_BUCKET_SIZE` and advance the refill clock. -/
def refill_tokens (now : ℚ) (s : RateState) : RateState :=
  let elapsed := now - s.last_token_refill
  let new_tokens := elapsed * TOKEN_REFILL_RATE
  if 0 < new_tokens then
    { s with tokens := min TOKEN_BUCKET_SIZE (s.tokens + new_tokens),
             last_token_refill := now }
  else
    s

/-- `wait_for_rate_limit` from `src/api_solov2chat.py` (lines 67–87).
All pre-sleep reads of `time.time()` are modelled as the single instant
`now`; on the pacing path the post-sleep `time.time()` is
`last_call_time + CALL_INTERVAL`. -/
def wait_for_rate_limit (now : ℚ) (s : RateState) : AcquireResult × RateState :=
  if now < s.api_disabled_until then
    (.cooldownDenial (s.api_disabled_until - now), s)
  else
    let s1 := refill_tokens now s
    if s1.tokens < 1 then
      (.exhaustedDenial, s1)
    else
      let time_since_last := now - s1.last_call_time
      let grant_time :=
        if time_since_last < CALL_INTERVAL then s1.last_call_time + CALL_INTERVAL else now
      (.permit, { s1 with tokens := s1.tokens - 1, last_call_time := grant_time })

/-- The possible outcomes of the HTTP exchange inside
`fetch_company_individual` (`src/api_solov2chat.py`, lines 310–389):
HTTP 429, other non-200 status, API error payload with code 6 (not found),
other API error payload, empty company data, success, and a network/other
exception. -/
inductive FetchOutcome where
  | status429
  | httpOther
  | apiErrorNotFound
  | apiErrorOther
  | noData
  | success
  | networkError
deriving DecidableEq, Repr

/-- The rate-limiter state updates that `fetch_company_individual` performs
for each outcome (`src/api_solov2chat.py`, lines 327–389): a 429 increments
`_consecutive_errors` and, when the count reaches
`MAX_CONSECUTIVE_ERRORS`, sets `_api_disabled_until = now + COOLDOWN_SECONDS`;
other HTTP errors, non-not-found API errors and network exceptions only
increment the counter; a not-found payload and empty data change nothing;
success resets the counter to 0. -/
def report_outcome (now : ℚ) (o : FetchOutcome) (s : RateState) : RateState :=
  match o with
  | .status429 =>
      let e := s.consecutive_errors + 1
      if MAX_CONSECUTIVE_ERRORS ≤ e then
        { s with consecutive_errors := e,
                 api_disabled_until := now + COOLDOWN_SECONDS }
      else
        { s with consecutive_errors := e }
  | .httpOther => { s with consecutive_errors := s.consecutive_errors + 1 }
  | .apiErrorNotFound => s
  | .apiErrorOther => { s with consecutive_errors := s.consecutive_errors + 1 }
  | .noData => s
  | .success => { s with consecutive_errors := 0 }
  | .networkError => { s with consecutive_errors := s.consecutive_errors + 1 }

/-- Outcomes that the spec counts as errors (`transient_error` or
`rate_limited`): 429, other non-200 status, non-not-found API error payload,
network exception. -/
def isErrorOutcome : FetchOutcome → Bool
  | .status429 => true
  | .httpOther => true
  | .apiErrorOther => true
  | .networkError => true
  | _ => false

/-- The possible outcomes of the HTTP exchange inside
`fetch_company_ids_bulk` (`src/api_solov2chat.py`, lines 157–208). -/
inductive BulkOutcome where
  | status429
  | httpOther
  | apiError
  | noData
  | success
  | networkError
deriving DecidableEq, Repr

/-- The rate-limiter state updates that `fetch_company_ids_bulk` performs
for each outcome (`src/api_solov2chat.py`, lines 170–208): a 429 immediately
sets the cooldown deadline and increments the counter; non-200 statuses,
API error payloads and empty data change nothing; success resets the
counter; a network/other exception increments it. -/
def report_outcome_bulk (now : ℚ) (o : BulkOutcome) (s : RateState) : RateState :=
  match o with
  | .status429 =>
      { s with api_disabled_until := now + COOLDOWN_SECONDS,
               consecutive_errors := s.consecutive_errors + 1 }
  | .httpOther => s
  | .apiError => s
  | .noData => s
  | .success => { s with consecutive_errors := 0 }
  | .networkError => { s with consecutive_errors := s.consecutive_errors + 1 }

/-- Module-load state of the rate-limiter globals
(`src/api_solov2chat.py`, lines 50–56): a full bucket, zeroed clocks and
counter, and `_last_token_refill = time.time()` at load time `t0`. -/
def initState (t0 : ℚ) : RateState :=
  { tokens := TOKEN_BUCKET_SIZE
    last_call_time := 0
    api_disabled_until := 0
    consecutive_errors := 0
    last_token_refill := t0 }

/-- One operation on the shared rate-limiter state: an `acquire`
(`wait_for_rate_limit`), a bare refill, or an outcome report from
`fetch_company_individual`, each at a caller-supplied clock reading. -/
inductive RateOp where
  | acquire (now : ℚ)
  | refill (now : ℚ)
  | report (now : ℚ) (o : FetchOutcome)

/-- Apply one operation to the rate-limiter state. -/
def applyOp (s : RateState) : RateOp → RateState
  | .acquire now => (wait_for_rate_limit now s).2
  | .refill now => refill_tokens now s
  | .report now o => report_outcome now o s

/-- The integer price band scanned by `calculate_possible_prices`:
`range(PRICE_START, PRICE_END + 1)`. -/
def price_range : List ℤ :=
  (List.range (PRICE_END + 1 - PRICE_START).toNat).map (fun (i : ℕ) => PRICE_START + (i : ℤ))

/-- `calculate_possible_prices` from `src/api_solov2chat.py` (lines 104–107):
empty when `daily_income` is falsy or non-positive (for an integer, falsy
means zero), otherwise every `p` in the band dividing `daily_income`. -/
def calculate_possible_prices (daily_income : ℤ) : List ℤ :=
  if daily_income = 0 ∨ daily_income ≤ 0 then
    []
  else
    price_range.filter (fun p => daily_income % p == 0)

/-- `calculate_price_guess` from `src/api_solov2chat.py` (lines 109–113):
the element at index `len // 2` when the list is non-empty (the Python
guard checks both truthiness and `len(...) > 0`), else `None`. -/
def calculate_price_guess (possible_prices : List ℤ) : Option ℤ :=
  if ¬ possible_prices.isEmpty ∧ 0 < possible_prices.length then
    possible_prices.get? (possible_prices.length / 2)
  else
    none

/-- A company record as fed to `save_snapshots`: only `company_id` drives
the insertion plan; `payload` stands for the remaining fields
(name, rating, incomes, …), which the plan carries through untouched. -/
structure CompanyRec where
  company_id : ℤ
  payload : ℕ
deriving DecidableEq, Repr

/-- The first dedup pass of `save_snapshots` (`src/api_solov2chat.py`,
lines 434–441): walk the batch keeping a `seen_ids` set and drop every
record whose id was already seen. -/
def dedupe_by_id_aux (seen : List ℤ) : List CompanyRec → List CompanyRec
  | [] => []
  | c :: rest =>
      if c.company_id ∈ seen then
        dedupe_by_id_aux seen rest
      else
        c :: dedupe_by_id_aux (c.company_id :: seen) rest

/-- The insertion plan of `save_snapshots` (`src/api_solov2chat.py`,
lines 427–497): dedupe the batch by id (first occurrence wins); with the
override flag set the existing rows for the date are deleted so the
existing-id set is empty, otherwise it is the queried set; keep the records
whose id is not in that set, in order. -/
def save_snapshots_plan (companies : List CompanyRec) (existing_ids : List ℤ)
    (override : Bool) : List CompanyRec :=
  let unique_companies := dedupe_by_id_aux [] companies
  let existing := if override then [] else existing_ids
  unique_companies.filter (fun c => decide (c.company_id ∉ existing))

end ApiSolo

namespace Chat

/-- `_refill_tokens` from `src/chat.py` (lines 91–98); textually identical
logic to the `api_solov2chat` version. -/
def refill_tokens (now : ℚ) (s : RateState) : RateState :=
  let elapsed := now - s.last_token_refill
  let new_tokens := elapsed * TOKEN_REFILL_RATE
  if 0 < new_tokens then
    { s with tokens := min TOKEN_BUCKET_SIZE (s.tokens + new_tokens),
             last_token_refill := now }
  else
    s

/-- `calculate_possible_prices` from `src/chat.py` (lines 124–127);
textually identical logic to the `api_solov2chat` version. -/
def calculate_possible_prices (daily_income : ℤ) : List ℤ :=
  if daily_income = 0 ∨ daily_income ≤ 0 then
    []
  else
    ApiSolo.price_range.filter (fun p => daily_income % p == 0)

/-- `calculate_price_guess` from `src/chat.py` (lines 129–132): the guard
is plain truthiness (`if possible_prices:`), without the redundant
`len(...) > 0` conjunct of the other file. -/
def calculate_price_guess (possible_prices : List ℤ) : Option ℤ :=
  if ¬ possible_prices.isEmpty then
    possible_prices.get? (possible_prices.length / 2)
  else
    none

end Chat

/-! Helper lemmas about the refill computation, shared by several theorems. -/

theorem TOKEN_REFILL_RATE_pos : 0 < TOKEN_REFILL_RATE := by
  norm_num [TOKEN_REFILL_RATE]

theorem refill_tokens_mono (now : ℚ) (s : RateState)
    (hcap : s.tokens ≤ TOKEN_BUCKET_SIZE) :
    s.tokens ≤ (ApiSolo.refill_tokens now s).tokens := by
  simp only [ApiSolo.refill_tokens]
  split_ifs with h
  · exact le_min hcap (by linarith)
  · exact le_refl _

theorem refill_tokens_le_cap (now : ℚ) (s : RateState)
    (hcap : s.tokens ≤ TOKEN_BUCKET_SIZE) :
    (ApiSolo.refill_tokens now s).tokens ≤ TOKEN_BUCKET_SIZE := by
  simp only [ApiSolo.refill_tokens]
  split_ifs with h
  · exact min_le_left _ _
  · exact hcap

theorem refill_tokens_nonneg (now : ℚ) (s : RateState)
    (h0 : 0 ≤ s.tokens) :
    0 ≤ (ApiSolo.refill_tokens now s).tokens := by
  simp only [ApiSolo.refill_tokens]
  split_ifs with h
  · exact le_min (by norm_num [TOKEN_BUCKET_SIZE]) (by linarith)
  · exact h0

theorem refill_tokens_idem (now : ℚ) (s : RateState) :
    ApiSolo.refill_tokens now (ApiSolo.refill_tokens now s) = ApiSolo.refill_tokens now s := by
  by_cases h : 0 < (now - s.last_token_refill) * TOKEN_REFILL_RATE
  · have h1 : ApiSolo.refill_tokens now s =
        { s with tokens := min TOKEN_BUCKET_SIZE (s.tokens + (now - s.last_token_refill) * TOKEN_REFILL_RATE),
                 last_token_refill := now } := by
      simp [ApiSolo.refill_tokens, h]
    rw [h1]
    simp [ApiSolo.refill_tokens]
  · have h1 : ApiSolo.refill_tokens now s = s := by
      simp [ApiSolo.refill_tokens, h]
    rw [h1, h1]

/-- Claim C2: token refill is the pure function of elapsed time
`tokens' = min(TOKEN_BUCKET_SIZE, tokens + elapsed * TOKEN_REFILL_RATE)`:
for any state with `0 ≤ tokens ≤ TOKEN_BUCKET_SIZE` and any clock reading
`now` at or after the last refill, `_refill_tokens` yields exactly that
value, hence is monotone and capped, and running it again at the same
instant changes nothing. -/
theorem refill_tokens_spec (s : RateState) (now : ℚ)
    (h0 : 0 ≤ s.tokens) (hcap : s.tokens ≤ TOKEN_BUCKET_SIZE)
    (helapsed : s.last_token_refill ≤ now) :
    (ApiSolo.refill_tokens now s).tokens
        = min TOKEN_BUCKET_SIZE (s.tokens + (now - s.last_token_refill) * TOKEN_REFILL_RATE)
      ∧ s.tokens ≤ (ApiSolo.refill_tokens now s).tokens
      ∧ (ApiSolo.refill_tokens now s).tokens ≤ TOKEN_BUCKET_SIZE
      ∧ ApiSolo.refill_tokens now (ApiSolo.refill_tokens now s)
          = ApiSolo.refill_tokens now s := by
  refine ⟨?_, refill_tokens_mono now s hcap, refill_tokens_le_cap now s hcap,
    refill_tokens_idem now s⟩
  simp only [ApiSolo.refill_tokens]
  split_ifs with h
  · rfl
  · have hr : 0 < TOKEN_REFILL_RATE := TOKEN_REFILL_RATE_pos
    have hx : (now - s.last_token_refill) * TOKEN_REFILL_RATE = 0 := by
      have hge : 0 ≤ (now - s.last_token_refill) * TOKEN_REFILL_RATE :=
        mul_nonneg (by linarith) (le_of_lt hr)
      exact le_antisymm (not_lt.mp h) hge
    rw [hx, add_zero, min_eq_right hcap]

/-- Claim C2 witness: the refill specification evaluated at a concrete
state (2 tokens, refill clock at 0) and clock reading 4. -/
theorem refill_tokens_spec_witness :
    (ApiSolo.refill_tokens 4 ⟨2, 0, 0, 0, 0⟩).tokens
        = min TOKEN_BUCKET_SIZE (2 + (4 - 0) * TOKEN_REFILL_RATE)
      ∧ (2 : ℚ) ≤ (ApiSolo.refill_tokens 4 ⟨2, 0, 0, 0, 0⟩).tokens
      ∧ (ApiSolo.refill_tokens 4 ⟨2, 0, 0, 0, 0⟩).tokens ≤ TOKEN_BUCKET_SIZE
      ∧ ApiSolo.refill_tokens 4 (ApiSolo.refill_tokens 4 ⟨2, 0, 0, 0, 0⟩)
          = ApiSolo.refill_tokens 4 ⟨2, 0, 0, 0, 0⟩ :=
  refill_tokens_spec ⟨2, 0, 0, 0, 0⟩ 4 (by norm_num) (by norm_num [TOKEN_BUCKET_SIZE])
    (by norm_num)

/-- Claim C9: a single success outcome resets the consecutive-error counter
to 0 from any state, in both `fetch_company_individual` and
`fetch_company_ids_bulk`, and touches neither the token count nor the
cooldown deadline, so subsequent gating is purely token-based. -/
theorem success_resets_error_count (now : ℚ) (s : RateState) :
    (ApiSolo.report_outcome now .success s).consecutive_errors = 0
      ∧ (ApiSolo.report_outcome now .success s).tokens = s.tokens
      ∧ (ApiSolo.report_outcome now .success s).api_disabled_until = s.api_disabled_until
      ∧ (ApiSolo.report_outcome_bulk now .success s).consecutive_errors = 0 :=
  ⟨rfl, rfl, rfl, rfl⟩

/-- Claim C10: the two source files implement the same pure core:
`calculate_possible_prices`, `calculate_price_guess` and `_refill_tokens`
are extensionally equal across `src/api_solov2chat.py` and `src/chat.py`. -/
theorem cross_file_core_equivalence :
    (∀ d : ℤ, ApiSolo.calculate_possible_prices d = Chat.calculate_possible_prices d)
      ∧ (∀ l : List ℤ, ApiSolo.calculate_price_guess l = Chat.calculate_price_guess l)
      ∧ ∀ (now : ℚ) (s : RateState),
          ApiSolo.refill_tokens now s = Chat.refill_tokens now s := by
  refine ⟨fun d => rfl, fun l => ?_, fun now s => rfl⟩
  cases l with
  | nil => rfl
  | cons a t =>
      simp [ApiSolo.calculate_price_guess, Chat.calculate_price_guess]

/-! Helper lemmas about the scanned price band. -/

theorem mem_price_range (p : ℤ) :
    p ∈ ApiSolo.price_range ↔ PRICE_START ≤ p ∧ p ≤ PRICE_END := by
  rw [ApiSolo.price_range, List.mem_map]
  constructor
  · rintro ⟨i, hi, rfl⟩
    rw [List.mem_range] at hi
    simp only [PRICE_START, PRICE_END] at hi ⊢
    omega
  · intro h
    simp only [PRICE_START, PRICE_END] at h
    refine ⟨(p - 135).toNat, ?_, ?_⟩
    · rw [List.mem_range]
      simp only [PRICE_START, PRICE_END]
      omega
    · simp only [PRICE_START]
      omega

theorem price_range_sorted :
    List.Pairwise (fun a b : ℤ => a < b) ApiSolo.price_range := by
  rw [ApiSolo.price_range, List.pairwise_map]
  refine (List.pairwise_lt_range _).imp ?_
  intro a b h
  simp only [PRICE_START]
  omega

/-- Claim C5: `calculate_possible_prices` returns exactly the integers `p`
in the inclusive band `[PRICE_START, PRICE_END] = [135, 199]` dividing
`daily_income`, in strictly ascending order, and returns the empty list for
every `daily_income ≤ 0`. -/
theorem calculate_possible_prices_spec (daily_income : ℤ) :
    (daily_income ≤ 0 → ApiSolo.calculate_possible_prices daily_income = [])
      ∧ (∀ p : ℤ, p ∈ ApiSolo.calculate_possible_prices daily_income ↔
          0 < daily_income ∧ PRICE_START ≤ p ∧ p ≤ PRICE_END ∧ daily_income % p = 0)
      ∧ List.Pairwise (fun a b => a < b) (ApiSolo.calculate_possible_prices daily_income)
      ∧ PRICE_START = 135 ∧ PRICE_END = 199 := by
  refine ⟨?_, ?_, ?_, rfl, rfl⟩
  · intro h
    rw [ApiSolo.calculate_possible_prices, if_pos (Or.inr h)]
  · intro p
    by_cases hd : daily_income ≤ 0
    · rw [ApiSolo.calculate_possible_prices, if_pos (Or.inr hd)]
      simp only [List.not_mem_nil, false_iff]
      rintro ⟨h1, _⟩
      omega
    · push_neg at hd
      rw [ApiSolo.calculate_possible_prices, if_neg (by omega)]
      simp only [List.mem_filter, mem_price_range, beq_iff_eq]
      constructor
      · rintro ⟨⟨h1, h2⟩, h3⟩
        exact ⟨hd, h1, h2, h3⟩
      · rintro ⟨_, h1, h2, h3⟩
        exact ⟨⟨h1, h2⟩, h3⟩
  · rw [ApiSolo.calculate_possible_prices]
    split_ifs with h
    · exact List.Pairwise.nil
    · exact List.Pairwise.sublist (List.filter_sublist _) price_range_sorted

/-- Claim C5 witness: a negative daily income yields the empty candidate
list, and 27000 yields the ascending divisor list `[135, 150, 180]`. -/
theorem calculate_possible_prices_spec_witness :
    ApiSolo.calculate_possible_prices (-7) = []
      ∧ (135 ∈ ApiSolo.calculate_possible_prices 27000 ↔
          0 < (27000 : ℤ) ∧ PRICE_START ≤ 135 ∧ (135 : ℤ) ≤ PRICE_END ∧ (27000 : ℤ) % 135 = 0) :=
  ⟨(calculate_possible_prices_spec (-7)).1 (by norm_num),
    (calculate_possible_prices_spec 27000).2.1 135⟩

/-- Claim C6: `calculate_price_guess` returns `None` exactly on the empty
list, and otherwise the element at index `len // 2` (floor division, hence
the upper-middle element for even lengths). -/
theorem calculate_price_guess_spec (l : List ℤ) :
    (ApiSolo.calculate_price_guess l = none ↔ l = [])
      ∧ ∀ (h : l ≠ []),
          ApiSolo.calculate_price_guess l
            = some (l.get ⟨l.length / 2,
                Nat.div_lt_self (List.length_pos.mpr h) one_lt_two⟩) := by
  cases l with
  | nil =>
      refine ⟨by simp [ApiSolo.calculate_price_guess], fun h => absurd rfl h⟩
  | cons a t =>
      constructor
      · simp only [ApiSolo.calculate_price_guess, List.isEmpty_cons, List.length_cons]
        rw [if_pos (by simp)]
        rw [List.get?_eq_get (by simp [Nat.div_lt_self])]
        simp
      · intro h
        simp only [ApiSolo.calculate_price_guess, List.isEmpty_cons, List.length_cons]
        rw [if_pos (by simp)]
        rw [List.get?_eq_get]

/-- Claim C6 witness: on the three-element list `[135, 150, 180]` the guess
is the middle element 150 (index `3 // 2 = 1`), and on `[]` it is `None`. -/
theorem calculate_price_guess_spec_witness :
    ApiSolo.calculate_price_guess [135, 150, 180] = some 150
      ∧ (ApiSolo.calculate_price_guess ([] : List ℤ) = none ↔ ([] : List ℤ) = []) :=
  ⟨(calculate_price_guess_spec [135, 150, 180]).2 (by simp),
    (calculate_price_guess_spec ([] : List ℤ)).1⟩

/-! Invariant preservation for the rate-limiter state machine. -/

theorem report_outcome_tokens (now : ℚ) (o : ApiSolo.FetchOutcome) (s : RateState) :
    (ApiSolo.report_outcome now o s).tokens = s.tokens := by
  cases o <;> simp only [ApiSolo.report_outcome] <;> split_ifs <;> rfl

theorem applyOp_tokens_invariant (s : RateState) (op : ApiSolo.RateOp)
    (h0 : 0 ≤ s.tokens) (hcap : s.tokens ≤ TOKEN_BUCKET_SIZE) :
    0 ≤ (ApiSolo.applyOp s op).tokens
      ∧ (ApiSolo.applyOp s op).tokens ≤ TOKEN_BUCKET_SIZE := by
  cases op with
  | refill now =>
      exact ⟨refill_tokens_nonneg now s h0, refill_tokens_le_cap now s hcap⟩
  | report now o =>
      rw [ApiSolo.applyOp, report_outcome_tokens]
      exact ⟨h0, hcap⟩
  | acquire now =>
      simp only [ApiSolo.applyOp, ApiSolo.wait_for_rate_limit]
      split_ifs with h1 h2 h3
      · exact ⟨h0, hcap⟩
      · exact ⟨refill_tokens_nonneg now s h0, refill_tokens_le_cap now s hcap⟩
      all_goals
        have hge := not_lt.mp h2
      all_goals
        have hle := refill_tokens_le_cap now s hcap
      all_goals
        refine ⟨?_, ?_⟩
      · show 0 ≤ (ApiSolo.refill_tokens now s).tokens - 1
        linarith
      · show (ApiSolo.refill_tokens now s).tokens - 1 ≤ TOKEN_BUCKET_SIZE
        linarith
      · show 0 ≤ (ApiSolo.refill_tokens now s).tokens - 1
        linarith
      · show (ApiSolo.refill_tokens now s).tokens - 1 ≤ TOKEN_BUCKET_SIZE
        linarith

theorem foldl_tokens_invariant (ops : List ApiSolo.RateOp) (s : RateState)
    (h0 : 0 ≤ s.tokens) (hcap : s.tokens ≤ TOKEN_BUCKET_SIZE) :
    0 ≤ (ops.foldl ApiSolo.applyOp s).tokens
      ∧ (ops.foldl ApiSolo.applyOp s).tokens ≤ TOKEN_BUCKET_SIZE := by
  induction ops generalizing s with
  | nil => exact ⟨h0, hcap⟩
  | cons op rest ih =>
      have h := applyOp_tokens_invariant s op h0 hcap
      exact ih (ApiSolo.applyOp s op) h.1 h.2

/-- Claim C4: starting from the module-load state (a full bucket of
`TOKEN_BUCKET_SIZE` tokens), every state reachable under any sequence of
acquire, refill and outcome-report operations keeps
`0 ≤ tokens ≤ TOKEN_BUCKET_SIZE`: the refill caps at the bucket size and the
single decrement happens only on the grant path, which requires
`tokens ≥ 1`. -/
theorem tokens_invariant (ops : List ApiSolo.RateOp) (t0 : ℚ) :
    (ApiSolo.initState t0).tokens = TOKEN_BUCKET_SIZE
      ∧ 0 ≤ (ops.foldl ApiSolo.applyOp (ApiSolo.initState t0)).tokens
      ∧ (ops.foldl ApiSolo.applyOp (ApiSolo.initState t0)).tokens ≤ TOKEN_BUCKET_SIZE := by
  refine ⟨rfl, ?_⟩
  exact foldl_tokens_invariant ops (ApiSolo.initState t0)
    (by norm_num [ApiSolo.initState, TOKEN_BUCKET_SIZE]) (le_refl _)

/-! Helper lemmas about the snapshot dedup pass. -/

theorem dedupe_by_id_aux_sublist (l : List ApiSolo.CompanyRec) (seen : List ℤ) :
    (ApiSolo.dedupe_by_id_aux seen l).Sublist l := by
  induction l generalizing seen with
  | nil => exact List.Sublist.refl _
  | cons c rest ih =>
      rw [ApiSolo.dedupe_by_id_aux]
      split_ifs with hseen
      · exact List.Sublist.cons c (ih seen)
      · exact List.Sublist.cons₂ c (ih _)

theorem dedupe_by_id_aux_mem (l : List ApiSolo.CompanyRec) (seen : List ℤ)
    (x : ApiSolo.CompanyRec) :
    x ∈ ApiSolo.dedupe_by_id_aux seen l ↔
      x.company_id ∉ seen
        ∧ l.find? (fun c => c.company_id == x.company_id) = some x := by
  induction l generalizing seen with
  | nil => simp [ApiSolo.dedupe_by_id_aux]
  | cons c rest ih =>
      rw [ApiSolo.dedupe_by_id_aux]
      split_ifs with hseen
      · by_cases hc : c.company_id = x.company_id
        · rw [List.find?_cons_of_pos _ (by simp [hc]), ih]
          constructor
          · rintro ⟨hx, _⟩
            exact absurd (hc ▸ hseen) hx
          · rintro ⟨hx, _⟩
            exact absurd (hc ▸ hseen) hx
        · rw [List.find?_cons_of_neg _ (by simp [hc]), ih]
      · rw [List.mem_cons, ih]
        by_cases hc : c.company_id = x.company_id
        · rw [List.find?_cons_of_pos _ (by simp [hc])]
          constructor
          · rintro (rfl | ⟨hx, _⟩)
            · exact ⟨hseen, rfl⟩
            · exact absurd (List.mem_cons_self _ _) (hc ▸ hx)
          · rintro ⟨hx, heq⟩
            injection heq with h
            exact Or.inl h.symm
        · rw [List.find?_cons_of_neg _ (by simp [hc])]
          constructor
          · rintro (rfl | ⟨hx, hf⟩)
            · exact absurd rfl hc
            · exact ⟨fun hmem => hx (List.mem_cons_of_mem _ hmem), hf⟩
          · rintro ⟨hx, hf⟩
            right
            refine ⟨?_, hf⟩
            intro hmem
            rcases List.mem_cons.mp hmem with h1 | h1
            · exact hc h1.symm
            · exact hx h1

theorem dedupe_by_id_aux_pairwise (l : List ApiSolo.CompanyRec) (seen : List ℤ) :
    List.Pairwise (fun a b => a.company_id ≠ b.company_id)
      (ApiSolo.dedupe_by_id_aux seen l) := by
  induction l generalizing seen with
  | nil => exact List.Pairwise.nil
  | cons c rest ih =>
      rw [ApiSolo.dedupe_by_id_aux]
      split_ifs with hseen
      · exact ih seen
      · refine List.Pairwise.cons ?_ (ih _)
        intro y hy heq
        have hm := (dedupe_by_id_aux_mem rest (c.company_id :: seen) y).mp hy
        exact hm.1 (List.mem_cons.mpr (Or.inl heq.symm))

/-- Claim C7: the snapshot-insertion plan keeps the surviving records in
their original relative order (they form a sublist of the input), keeps at
most one record per company id, and a record survives exactly when it is
the first occurrence of its id in the batch and (unless the override flag
is set) its id is not among the ids already stored for the date; with the
override flag the plan filters against the empty id set, regardless of the
actual existing ids. -/
theorem save_snapshots_plan_spec (records : List ApiSolo.CompanyRec)
    (existing : List ℤ) (override : Bool) :
    (ApiSolo.save_snapshots_plan records existing override).Sublist records
      ∧ List.Pairwise (fun a b => a.company_id ≠ b.company_id)
          (ApiSolo.save_snapshots_plan records existing override)
      ∧ (∀ x, x ∈ ApiSolo.save_snapshots_plan records existing override ↔
          records.find? (fun c => c.company_id == x.company_id) = some x
            ∧ (override = true ∨ x.company_id ∉ existing))
      ∧ ApiSolo.save_snapshots_plan records existing true
          = ApiSolo.save_snapshots_plan records [] false := by
  refine ⟨?_, ?_, ?_, rfl⟩
  · exact (List.filter_sublist _).trans (dedupe_by_id_aux_sublist records [])
  · exact List.Pairwise.sublist (List.filter_sublist _)
      (dedupe_by_id_aux_pairwise records [])
  · intro x
    simp only [ApiSolo.save_snapshots_plan, List.mem_filter, dedupe_by_id_aux_mem,
      List.not_mem_nil, not_false_iff, true_and, decide_eq_true_eq]
    cases override with
    | true => simp
    | false => simp

/-- Claim C8: the snapshot-insertion plan without override is idempotent:
planning again with the existing-id set augmented by the ids selected in
the first run yields the empty plan. -/
theorem save_snapshots_plan_idempotent (records : List ApiSolo.CompanyRec)
    (existing : List ℤ) :
    ApiSolo.save_snapshots_plan records
      (existing ++ (ApiSolo.save_snapshots_plan records existing false).map
        (fun c => c.company_id)) false = [] := by
  have hplan : ∀ (ex : List ℤ), ApiSolo.save_snapshots_plan records ex false
      = (ApiSolo.dedupe_by_id_aux [] records).filter
          (fun c => decide (c.company_id ∉ ex)) := fun ex => rfl
  rw [hplan, List.filter_eq_nil_iff]
  intro u hu
  simp only [decide_eq_true_eq, not_not, List.mem_append]
  by_cases hex : u.company_id ∈ existing
  · exact Or.inl hex
  · right
    rw [List.mem_map]
    refine ⟨u, ?_, rfl⟩
    rw [hplan, List.mem_filter]
    exact ⟨hu, by simpa using hex⟩

/-! Helper lemmas about error-outcome reports in `fetch_company_individual`. -/

theorem report_error_outcome_errors (now : ℚ) (o : ApiSolo.FetchOutcome)
    (s : RateState) (h : ApiSolo.isErrorOutcome o = true) :
    (ApiSolo.report_outcome now o s).consecutive_errors = s.consecutive_errors + 1 := by
  cases o with
  | status429 =>
      simp only [ApiSolo.report_outcome]
      split_ifs <;> rfl
  | httpOther => rfl
  | apiErrorOther => rfl
  | networkError => rfl
  | apiErrorNotFound => exact absurd h (by simp [ApiSolo.isErrorOutcome])
  | noData => exact absurd h (by simp [ApiSolo.isErrorOutcome])
  | success => exact absurd h (by simp [ApiSolo.isErrorOutcome])

theorem report_429_at_threshold (now : ℚ) (s : RateState)
    (h : MAX_CONSECUTIVE_ERRORS ≤ s.consecutive_errors + 1) :
    (ApiSolo.report_outcome now .status429 s).api_disabled_until
      = now + COOLDOWN_SECONDS := by
  simp only [ApiSolo.report_outcome]
  rw [if_pos h]

/-- Claim C1 counterexample: three consecutive transient-error outcomes
(network error, non-200 status, network error) with no intervening success
bring the consecutive-error count to `MAX_CONSECUTIVE_ERRORS = 3`, yet the
cooldown deadline stays 0 and the next `wait_for_rate_limit` call (with
tokens available) grants a permit instead of a cooling-down denial:
in `fetch_company_individual` only the 429 branch can arm the cooldown. -/
theorem three_transient_errors_no_cooldown :
    (ApiSolo.report_outcome 5 .networkError
        (ApiSolo.report_outcome 3 .httpOther
          (ApiSolo.report_outcome 1 .networkError
            (ApiSolo.initState 0)))).consecutive_errors = MAX_CONSECUTIVE_ERRORS
      ∧ (ApiSolo.report_outcome 5 .networkError
          (ApiSolo.report_outcome 3 .httpOther
            (ApiSolo.report_outcome 1 .networkError
              (ApiSolo.initState 0)))).api_disabled_until = 0
      ∧ (ApiSolo.wait_for_rate_limit 10
          (ApiSolo.report_outcome 5 .networkError
            (ApiSolo.report_outcome 3 .httpOther
              (ApiSolo.report_outcome 1 .networkError
                (ApiSolo.initState 0))))).1 = .permit := by
  refine ⟨by decide, by decide, ?_⟩
  show (ApiSolo.wait_for_rate_limit 10 ⟨5, 0, 0, 3, 0⟩).1 = .permit
  simp only [ApiSolo.wait_for_rate_limit, ApiSolo.refill_tokens]
  norm_num [TOKEN_REFILL_RATE, TOKEN_BUCKET_SIZE, CALL_INTERVAL, min_def]

/-- Claim C1 (amended): after three consecutive error outcomes with no
intervening success, where the outcome reaching the threshold is a 429
(`rate_limited`), the cooldown deadline is set to `now + COOLDOWN_SECONDS`
and every `wait_for_rate_limit` call before that deadline returns the
cooling-down denial regardless of the token count; transient errors only
increment the counter and never arm the cooldown themselves. -/
theorem threshold_via_429_triggers_cooldown (s : RateState) (t1 t2 t3 now2 : ℚ)
    (o1 o2 : ApiSolo.FetchOutcome)
    (herr : s.consecutive_errors = 0)
    (h1 : ApiSolo.isErrorOutcome o1 = true)
    (h2 : ApiSolo.isErrorOutcome o2 = true)
    (hnow : now2 < t3 + COOLDOWN_SECONDS) :
    (ApiSolo.report_outcome t3 .status429
        (ApiSolo.report_outcome t2 o2
          (ApiSolo.report_outcome t1 o1 s))).api_disabled_until
      = t3 + COOLDOWN_SECONDS
      ∧ (ApiSolo.wait_for_rate_limit now2
          (ApiSolo.report_outcome t3 .status429
            (ApiSolo.report_outcome t2 o2
              (ApiSolo.report_outcome t1 o1 s)))).1
        = .cooldownDenial (t3 + COOLDOWN_SECONDS - now2) := by
  have e1 := report_error_outcome_errors t1 o1 s h1
  have e2 := report_error_outcome_errors t2 o2 (ApiSolo.report_outcome t1 o1 s) h2
  rw [e1, herr] at e2
  have hdead : (ApiSolo.report_outcome t3 .status429
      (ApiSolo.report_outcome t2 o2
        (ApiSolo.report_outcome t1 o1 s))).api_disabled_until
      = t3 + COOLDOWN_SECONDS :=
    report_429_at_threshold t3 _ (by rw [e2]; norm_num [MAX_CONSECUTIVE_ERRORS])
  refine ⟨hdead, ?_⟩
  rw [ApiSolo.wait_for_rate_limit, if_pos (by rw [hdead]; exact hnow), hdead]

/-- Claim C1 witness: the amended theorem evaluated at the module-load
state with two network errors followed by a 429, all at time 0, and an
acquire at time 0. -/
theorem threshold_via_429_triggers_cooldown_witness :
    (ApiSolo.report_outcome 0 .status429
        (ApiSolo.report_outcome 0 .networkError
          (ApiSolo.report_outcome 0 .networkError
            (ApiSolo.initState 0)))).api_disabled_until = 0 + COOLDOWN_SECONDS
      ∧ (ApiSolo.wait_for_rate_limit 0
          (ApiSolo.report_outcome 0 .status429
            (ApiSolo.report_outcome 0 .networkError
              (ApiSolo.report_outcome 0 .networkError
                (ApiSolo.initState 0))))).1
        = .cooldownDenial (0 + COOLDOWN_SECONDS - 0) :=
  threshold_via_429_triggers_cooldown (ApiSolo.initState 0) 0 0 0 0
    .networkError .networkError rfl rfl rfl (by norm_num [COOLDOWN_SECONDS])

/-- Claim C3 counterexample: with 0 tokens, refill clock at 0 and no active
cooldown, the acquire at time 1 is denied for exhaustion, yet the call has
changed the tokens field (the refill ran first and raised it from 0 to 1/2),
so a denied call does not leave `tokens` unchanged. -/
theorem exhausted_denial_changes_tokens :
    (ApiSolo.wait_for_rate_limit 1 ⟨0, 0, 0, 0, 0⟩).1 = .exhaustedDenial
      ∧ ((ApiSolo.wait_for_rate_limit 1 ⟨0, 0, 0, 0, 0⟩).2).tokens
          ≠ (⟨0, 0, 0, 0, 0⟩ : RateState).tokens := by
  constructor
  · simp only [ApiSolo.wait_for_rate_limit, ApiSolo.refill_tokens]
    norm_num [TOKEN_REFILL_RATE, TOKEN_BUCKET_SIZE, CALL_INTERVAL, min_def]
  · simp only [ApiSolo.wait_for_rate_limit, ApiSolo.refill_tokens]
    norm_num [TOKEN_REFILL_RATE, TOKEN_BUCKET_SIZE, CALL_INTERVAL, min_def]

/-- Claim C3 (amended): a denied `wait_for_rate_limit` call never consumes
a token: on the cooling-down path the whole state is returned unchanged,
and on the exhaustion path the tokens are only subject to the refill, so
(given `tokens ≤ TOKEN_BUCKET_SIZE`) the resulting token count is at least
the previous one — denial never decrements it, though the refill may have
increased it. -/
theorem denied_acquire_never_consumes (s : RateState) (now : ℚ)
    (hcap : s.tokens ≤ TOKEN_BUCKET_SIZE) :
    ((ApiSolo.wait_for_rate_limit now s).1 ≠ .permit →
        s.tokens ≤ ((ApiSolo.wait_for_rate_limit now s).2).tokens)
      ∧ (now < s.api_disabled_until →
          (ApiSolo.wait_for_rate_limit now s).2 = s) := by
  simp only [ApiSolo.wait_for_rate_limit]
  split_ifs with h1 h2 h3
  · exact ⟨fun _ => le_refl _, fun _ => rfl⟩
  · exact ⟨fun _ => refill_tokens_mono now s hcap, fun hc => absurd hc h1⟩
  · exact ⟨fun hp => absurd rfl hp, fun hc => absurd hc h1⟩
  · exact ⟨fun hp => absurd rfl hp, fun hc => absurd hc h1⟩

/-- Claim C3 witness: the amended no-consumption theorem evaluated at the
concrete state of the counterexample (0 tokens, all clocks at 0, acquire
at time 1). -/
theorem denied_acquire_never_consumes_witness :
    ((ApiSolo.wait_for_rate_limit 1 ⟨0, 0, 0, 0, 0⟩).1 ≠ .permit →
        (0 : ℚ) ≤ ((ApiSolo.wait_for_rate_limit 1 ⟨0, 0, 0, 0, 0⟩).2).tokens)
      ∧ ((1 : ℚ) < 0 →
          (ApiSolo.wait_for_rate_limit 1 ⟨0, 0, 0, 0, 0⟩).2 = ⟨0, 0, 0, 0, 0⟩) :=
  denied_acquire_never_consumes ⟨0, 0, 0, 0, 0⟩ 1 (by norm_num [TOKEN_BUCKET_SIZE])
